import Mathlib

/-!
# Shallow embedding of the Leetbit aggregation engine

This file models the period-summary / streak / weekday-insight engine of the
Leetbit habit tracker (`src/server/src/index.ts`) and proves the specification
claims about it.

Modeling conventions:
* A calendar date (a JS `Date` at UTC midnight) is a natural number: the count
  of days since 1970-01-01 UTC.  Comparison and day stepping on JS `Date`
  objects at UTC midnight coincide with `Nat` comparison and `+1`/`-1` on the
  day index.
* ISO date strings (`"YYYY-MM-DD"`) are real Lean `String`s, produced by the
  same Gregorian-calendar conversion that `Date.prototype.toISOString` performs
  and compared with Lean's lexicographic `String` order, which agrees with the
  JavaScript string comparison used by the source on ASCII strings.
* SQL tables become lists of row structures; `SELECT ... WHERE` becomes
  `List.filter` (SQL `BETWEEN` on TEXT columns is the same lexicographic
  comparison), and JS `Map`s become association lists with `List.lookup`
  (key sets built by the source are duplicate-free thanks to the
  `UNIQUE(habit_id, date)` constraint, so first-match lookup agrees with the
  JS `Map` last-write-wins construction).
* The floating-point expression `Number(((completed / total) * 100).toFixed(1))`
  is modeled exactly over `ℚ` as round-half-up to one decimal digit.
-/

namespace Leetbit

/-! ## Date utilities (source: `toISODate`, `fromISODate`, `addDaysUTC`,
`startOfISOWeek`, `endOfISOWeek`, `endOfMonthUTC`, `dayBeforeISO`) -/

/-- Convert a day index (days since 1970-01-01) to a Gregorian `(year, month,
day)` triple, with `month` and `day` 1-based.  This is the standard civil-
from-days algorithm, the calendar computation that JS `Date`/`toISOString`
performs. -/
def civilFromDays (z0 : Nat) : Nat × Nat × Nat :=
  -- shift so that day 0 is 0000-03-01 (719468 days before 1970-01-01)
  let z := z0 + 719468
  let era := z / 146097
  let doe := z % 146097
  let yoe := (doe - doe / 1460 + doe / 36524 - doe / 146096) / 365
  let y := yoe + era * 400
  let doy := doe - (365 * yoe + yoe / 4 - yoe / 100)
  let mp := (5 * doy + 2) / 153
  let d := doy - (153 * mp + 2) / 5 + 1
  let m := if mp < 10 then mp + 3 else mp - 9
  (if m ≤ 2 then y + 1 else y, m, d)

/-- Convert a Gregorian date (1-based month/day) to its day index (days since
1970-01-01).  Inverse of `civilFromDays` on dates from 1970 on. -/
def daysFromCivil (y m d : Nat) : Nat :=
  let y' := if m ≤ 2 then y - 1 else y
  let era := y' / 400
  let yoe := y' % 400
  let mp := if 2 < m then m - 3 else m + 9
  let doy := (153 * mp + 2) / 5 + d - 1
  let doe := yoe * 365 + yoe / 4 - yoe / 100 + doy
  era * 146097 + doe - 719468

/-- The two zero-padded decimal digits of `n` (for `n < 100`). -/
def pad2 (n : Nat) : List Char :=
  [Nat.digitChar (n / 10 % 10), Nat.digitChar (n % 10)]

/-- The four zero-padded decimal digits of `n` (for `n < 10000`). -/
def pad4 (n : Nat) : List Char :=
  pad2 (n / 100) ++ pad2 (n % 100)

/-- The `"YYYY-MM-DD"` string of a `(year, month, day)` triple. -/
def isoStringOfYMD (y m d : Nat) : String :=
  ⟨pad4 y ++ '-' :: (pad2 m ++ '-' :: pad2 d)⟩

/-- `toISODate`: format a day index as `"YYYY-MM-DD"`
(source: `date.toISOString().slice(0, 10)`). -/
def toISODate (day : Nat) : String :=
  let c := civilFromDays day
  isoStringOfYMD c.1 c.2.1 c.2.2

/-- Numeric value of a decimal digit character. -/
def digitVal (c : Char) : Nat := c.toNat - 48

/-- Boolean lexicographic order on character lists (the order JS string
comparison uses; on ASCII it is also Lean's `List Char` order — proved below
in `lexLtB_iff_lt`). -/
def lexLtB : List Char → List Char → Bool
  | [], [] => false
  | [], _ :: _ => true
  | _ :: _, [] => false
  | a :: as, b :: bs => if a < b then true else if b < a then false else lexLtB as bs

/-- JS `a < b` on strings: lexicographic comparison. -/
def strLt (a b : String) : Bool := lexLtB a.data b.data

/-- JS `a <= b` on strings. -/
def strLe (a b : String) : Bool := !(strLt b a)

/-- SQL `lower()` / ASCII lowercasing, character by character. -/
def lowerStr (s : String) : String := ⟨s.data.map Char.toLower⟩

/-- JS `String.prototype.trim`: strip leading and trailing whitespace. -/
def trimStr (s : String) : String :=
  ⟨((s.data.dropWhile Char.isWhitespace).reverse.dropWhile Char.isWhitespace).reverse⟩

/-- `fromISODate`: parse a `"YYYY-MM-DD"` string back to a day index (source:
`new Date(`${date}T00:00:00.000Z`)`).  Malformed strings (out of scope: the
HTTP layer validates the `\d{4}-\d{2}-\d{2}` shape) are sent to day 0. -/
def fromISODate (s : String) : Nat :=
  match s.data with
  | [y1, y2, y3, y4, _, m1, m2, _, d1, d2] =>
      daysFromCivil
        (digitVal y1 * 1000 + digitVal y2 * 100 + digitVal y3 * 10 + digitVal y4)
        (digitVal m1 * 10 + digitVal m2)
        (digitVal d1 * 10 + digitVal d2)
  | _ => 0

/-- `getUTCDay`: weekday of a day index, `0 = Sunday` (1970-01-01 was a
Thursday, weekday 4). -/
def weekdayOf (day : Nat) : Nat := (day + 4) % 7

/-- `startOfISOWeek`: Monday on or before the given day
(source: `addDaysUTC(date, -((day + 6) % 7))` with `day = getUTCDay()`). -/
def startOfISOWeek (day : Nat) : Nat := day - (weekdayOf day + 6) % 7

/-- `endOfISOWeek`: the Sunday ending the ISO week. -/
def endOfISOWeek (day : Nat) : Nat := startOfISOWeek day + 6

/-- `endOfMonthUTC(year, monthZeroBased)`: last day of the month
(source: `new Date(Date.UTC(year, monthZeroBased + 1, 0))`). -/
def endOfMonthUTC (year m0 : Nat) : Nat :=
  (if m0 = 11 then daysFromCivil (year + 1) 1 1 else daysFromCivil year (m0 + 2) 1) - 1

/-- `dayBeforeISO`: the ISO string of the previous day. -/
def dayBeforeISO (dateISO : String) : String :=
  toISODate (fromISODate dateISO - 1)

/-! ## Data model (source: `HabitRow`, `CheckinRow`, `PeriodSummary`,
`HabitComparisonItem`, `HabitDateRow`, the SQLite schema) -/

/-- A row of the `habits` table.  `deleted_on = none` models SQL `NULL`. -/
structure HabitRow where
  id : Nat
  name : String
  created_at : String
  deleted_on : Option String
deriving DecidableEq, Repr

/-- A row of the `checkins` table (`completed` is the 0/1 integer column). -/
structure CheckinRec where
  habit_id : Nat
  date : String
  completed : Nat
deriving DecidableEq, Repr

/-- A database snapshot: the `habits` and `checkins` tables.  Rows are kept in
primary-key (`id`) order, which is what the source's `ORDER BY id ASC` and
insertion-order iteration both produce. -/
structure Db where
  habits : List HabitRow
  checkins : List CheckinRec
deriving DecidableEq, Repr

/-- Round-half-up to one decimal digit: the exact-arithmetic content of
`Number(x.toFixed(1))` on a nonnegative value. -/
def round1 (q : ℚ) : ℚ := ((⌊q * 10 + 1 / 2⌋ : ℤ) : ℚ) / 10

/-- A `{completed, total, consistency}` summary value. -/
structure PeriodSummary where
  completed : Nat
  total : Nat
  consistency : ℚ
deriving DecidableEq, Repr

/-- One entry of a `habitComparison` list. -/
structure HabitComparisonItem where
  habitId : Nat
  name : String
  consistency : ℚ
deriving DecidableEq, Repr

/-- `consistency` field computation shared by both summary builders
(source: `total === 0 ? 0 : Number(((completed / total) * 100).toFixed(1))`). -/
def consistencyOf (completed total : Nat) : ℚ :=
  if total = 0 then 0 else round1 ((completed : ℚ) / (total : ℚ) * 100)

/-! ## Habit lifecycle filter (source: `isHabitActiveOnDate`) -/

/-- `isHabitActiveOnDate(habit, dateISO)`:
`habit.created_at <= dateISO && (!habit.deleted_on || habit.deleted_on > dateISO)`.
JS treats `null`/`undefined`/`""` as falsy, hence the explicit empty-string
case. -/
def isHabitActiveOnDate (habit : HabitRow) (dateISO : String) : Bool :=
  strLe habit.created_at dateISO &&
    (match habit.deleted_on with
     | none => true
     | some s => s == "" || strLt dateISO s)

/-- The list of days from `start` to `stop`, both inclusive (empty when
`stop < start`): the iteration space of the source's
`for (let d = start; d <= stop; d = addDaysUTC(d, 1))` loops. -/
def dayRange (start stop : Nat) : List Nat :=
  (List.range (stop + 1 - start)).map (start + ·)

/-- Key of the `"habitId-date"`-keyed checkin maps
(source: `` `${habit_id}-${date}` ``). -/
def habKey (id : Nat) (iso : String) : String :=
  toString id ++ "-" ++ iso

/-! ## Period summary calculators (source: `buildPeriodSummary`,
`buildAllPeriodSummary`) -/

/-- `buildPeriodSummary(habitId, start, end, today)`: single-habit summary of
the inclusive day range `[start, end]` capped at `today`.  The SQL query
becomes a filter of the `checkins` table (`BETWEEN` on the TEXT `date` column
is the same lexicographic comparison), and the per-day `for` loop becomes a
fold accumulating `(completed, total)`. -/
def buildPeriodSummary (db : Db) (habitId : Nat) (start end_ today : Nat) :
    PeriodSummary :=
  let cappedEnd := if today < end_ then today else end_
  if cappedEnd < start then ⟨0, 0, 0⟩
  else
    let rows := db.checkins.filter fun r =>
      r.habit_id == habitId && strLe (toISODate start) r.date
        && strLe r.date (toISODate cappedEnd)
    let completedMap : List (String × Bool) :=
      rows.map fun r => (r.date, r.completed == 1)
    let acc := (dayRange start cappedEnd).foldl
      (fun (acc : Nat × Nat) d =>
        (acc.1 + (if (completedMap.lookup (toISODate d)).getD false then 1 else 0),
         acc.2 + 1))
      (0, 0)
    ⟨acc.1, acc.2, consistencyOf acc.1 acc.2⟩

/-- The habits active on the day `iso` (source:
`habits.filter((habit) => isHabitActiveOnDate(habit, iso))`). -/
def activeHabitsOn (habits : List HabitRow) (iso : String) : List HabitRow :=
  habits.filter fun h => isHabitActiveOnDate h iso

/-- Number of active habits on `iso` whose checkin record in the
`"habitId-date"`-keyed map is `1` (source: the `activeHabits.reduce` /
inner-loop `(checkinsMap.get(key) ?? 0) === 1` counts). -/
def doneCountOn (habits : List HabitRow) (cm : List (String × Nat))
    (iso : String) : Nat :=
  (activeHabitsOn habits iso).foldl
    (fun sum h => sum + (if (cm.lookup (habKey h.id iso)).getD 0 == 1 then 1 else 0))
    0

/-- `buildAllPeriodSummary(habits, checkinsMap, start, end, today)`: combined
summary over all habits; each day contributes one `total` (and possibly one
`completed`) per active habit, and days with zero active habits are skipped
(`continue`). -/
def buildAllPeriodSummary (habits : List HabitRow) (cm : List (String × Nat))
    (start end_ today : Nat) : PeriodSummary :=
  let cappedEnd := if today < end_ then today else end_
  if cappedEnd < start then ⟨0, 0, 0⟩
  else
    let acc := (dayRange start cappedEnd).foldl
      (fun (acc : Nat × Nat) d =>
        let iso := toISODate d
        let activeHabits := activeHabitsOn habits iso
        if activeHabits.isEmpty then acc
        else activeHabits.foldl
          (fun (acc2 : Nat × Nat) h =>
            (acc2.1 + (if (cm.lookup (habKey h.id iso)).getD 0 == 1 then 1 else 0),
             acc2.2 + 1))
          acc)
      (0, 0)
    ⟨acc.1, acc.2, consistencyOf acc.1 acc.2⟩

/-! ## Streak calculators (source: `getHabitCompletionsMap`,
`computeStreaksFromMap`, and the streak loops of `GET /api/summary`) -/

/-- `getHabitCompletionsMap(habitId)`: all checkins of one habit as a
`date → completed` map. -/
def getHabitCompletionsMap (db : Db) (habitId : Nat) : List (String × Bool) :=
  (db.checkins.filter fun r => r.habit_id == habitId).map
    fun r => (r.date, r.completed == 1)

/-- `completionsMap.get(iso)` with JS truthiness: a missing record reads as
`false`. -/
def lookupCompletion (m : List (String × Bool)) (iso : String) : Bool :=
  (m.lookup iso).getD false

/-- The backward walk of `computeStreaksFromMap`: from day `d` down while the
day is at least `startDate` and completed.  (The JS loop would walk past
1970-01-01 only if `startDate` preceded the epoch, which no `created_at`
written by this schema does, so stopping at day 0 is exact.) -/
def currentStreakAux (m : List (String × Bool)) (startDate : Nat) : Nat → Nat
  | 0 =>
      if 0 < startDate then 0
      else if lookupCompletion m (toISODate 0) then 1 else 0
  | d + 1 =>
      if d + 1 < startDate then 0
      else if lookupCompletion m (toISODate (d + 1)) then
        1 + currentStreakAux m startDate d
      else 0

/-- `computeStreaksFromMap(completionsMap, startDate, today)`: the single-habit
`{currentStreak, longestStreak}` pair. -/
def computeStreaksFromMap (m : List (String × Bool)) (startDate today : Nat) :
    Nat × Nat :=
  let currentStreak := currentStreakAux m startDate today
  let acc := (dayRange startDate today).foldl
    (fun (acc : Nat × Nat) d =>
      if lookupCompletion m (toISODate d) then
        let running := acc.1 + 1
        (running, if acc.2 < running then running else acc.2)
      else (0, acc.2))
    (0, 0)
  (currentStreak, acc.2)

/-- The combined-scope current-streak backward walk of `GET /api/summary`:
from day `d` down, stopping on the first day with zero active habits or with
some active habit not completed.  (As for `currentStreakAux`, stopping at day
0 is exact because every date before `"1970-01-01"` formats to a smaller
string than any `created_at` this schema writes.) -/
def combinedCurrentStreakAux (habits : List HabitRow)
    (cm : List (String × Nat)) : Nat → Nat
  | 0 =>
      let iso := toISODate 0
      let active := activeHabitsOn habits iso
      if active.length == 0 then 0
      else if doneCountOn habits cm iso == active.length then 1 else 0
  | d + 1 =>
      let iso := toISODate (d + 1)
      let active := activeHabitsOn habits iso
      if active.length == 0 then 0
      else if doneCountOn habits cm iso == active.length then
        1 + combinedCurrentStreakAux habits cm d
      else 0

/-- `habits.map((h) => h.created_at).sort()[0]`: the lexicographically
smallest creation date (`none` on an empty table, which the endpoint never
reaches because it returns the zero response first). -/
def earliestCreated (habits : List HabitRow) : Option String :=
  match habits.map (fun h => h.created_at) with
  | [] => none
  | s :: rest => some (rest.foldl (fun a b => if strLt b a then b else a) s)

/-- The combined-scope longest-streak forward scan of `GET /api/summary`:
from the earliest creation date up to `today`; days with zero active habits
are skipped (`continue`), other days reset the running counter unless every
active habit completed. -/
def combinedLongestStreak (habits : List HabitRow) (cm : List (String × Nat))
    (today : Nat) : Nat :=
  match earliestCreated habits with
  | none => 0
  | some s =>
    let acc := (dayRange (fromISODate s) today).foldl
      (fun (acc : Nat × Nat) d =>
        let iso := toISODate d
        let active := activeHabitsOn habits iso
        if active.length == 0 then acc
        else if doneCountOn habits cm iso == active.length then
          let running := acc.1 + 1
          (running, if acc.2 < running then running else acc.2)
        else (0, acc.2))
      (0, 0)
    acc.2

/-! ## Weekday insight calculators (source: the `weekdayStats` blocks of
`GET /api/habits/:habitId/summary` and `GET /api/summary`) -/

/-- One `weekdayStats` bucket. -/
structure WeekdayStat where
  name : String
  done : Nat
  total : Nat
  rate : ℚ
deriving DecidableEq, Repr

/-- `["Sun", "Mon", "Tue", "Wed", "Thu", "Fri", "Sat"]`. -/
def weekdayNames : List String :=
  ["Sun", "Mon", "Tue", "Wed", "Thu", "Fri", "Sat"]

/-- The days of the year range capped at `today` that the weekday loops visit:
`for (let d = yearStart; d <= (yearEnd < today ? yearEnd : today); ...)`. -/
def weekdayLoopDays (yearStart yearEnd today : Nat) : List Nat :=
  dayRange yearStart (if yearEnd < today then yearEnd else today)

/-- The single-habit `weekdayStats` of `GET /api/habits/:habitId/summary`:
the imperative per-day bucket increments, expressed per bucket (each bucket's
`total`/`done` counts the loop days falling on that weekday).  Note that the
source increments `total` on every loop day, with no habit-activity filter. -/
def weekdayStatsSingle (m : List (String × Bool)) (yearStart yearEnd today : Nat) :
    List WeekdayStat :=
  (List.range 7).map fun w =>
    let wdays := (weekdayLoopDays yearStart yearEnd today).filter
      fun d => weekdayOf d == w
    let total := wdays.length
    let done := (wdays.filter fun d => lookupCompletion m (toISODate d)).length
    ⟨weekdayNames.getD w "", done, total, consistencyOf done total⟩

/-- The combined `weekdayStats` of `GET /api/summary`: per loop day, one
`total` increment per active habit and one `done` increment per active habit
with record `1` (days with zero active habits contribute nothing). -/
def weekdayStatsAll (habits : List HabitRow) (cm : List (String × Nat))
    (yearStart yearEnd today : Nat) : List WeekdayStat :=
  (List.range 7).map fun w =>
    let wdays := (weekdayLoopDays yearStart yearEnd today).filter
      fun d => weekdayOf d == w
    let total := (wdays.map fun d => (activeHabitsOn habits (toISODate d)).length).sum
    let done := (wdays.map fun d => doneCountOn habits cm (toISODate d)).sum
    ⟨weekdayNames.getD w "", done, total, consistencyOf done total⟩

/-! ## Endpoint builders (source: `GET /api/habits/:habitId/summary` and
`GET /api/summary`) -/

/-- `monthLabel(year, monthZeroBased)`: `"<Mon> <Year>"`. -/
def monthLabel (year m0 : Nat) : String :=
  (["Jan", "Feb", "Mar", "Apr", "May", "Jun",
    "Jul", "Aug", "Sep", "Oct", "Nov", "Dec"].getD m0 "") ++ " " ++ toString year

/-- A labeled summary entry of the `weekly` / `monthly` arrays. -/
structure LabeledSummary where
  label : String
  summary : PeriodSummary
deriving DecidableEq, Repr

/-- The response of `GET /api/habits/:habitId/summary` (the fields the
aggregation engine computes; `bestDay`/`missedDayInsight` are the names of the
max-rate and min-rate entries of `weekdayStats` and carry no further
computation). -/
structure HabitSummaryOut where
  year : PeriodSummary
  currentWeek : PeriodSummary
  currentMonth : PeriodSummary
  weekly : List LabeledSummary
  monthly : List LabeledSummary
  currentStreak : Nat
  longestStreak : Nat
  lifetimeCompletions : Nat
  weekdayStats : List WeekdayStat
  habitComparison : List HabitComparisonItem
deriving DecidableEq, Repr

/-- The effective "today" of the single-habit endpoint (source:
`habit.deleted_on && habit.deleted_on <= now ? dayBeforeISO(habit.deleted_on) : now`). -/
def effectiveTodayISO (habit : HabitRow) (nowISO : String) : String :=
  match habit.deleted_on with
  | none => nowISO
  | some s => if s == "" then nowISO
              else if strLe s nowISO then dayBeforeISO s else nowISO

/-- `GET /api/habits/:habitId/summary` for an existing habit id (`none` models
the 404 path).  `nowISO` is `toISODate(new Date())`. -/
def buildHabitSummary (db : Db) (habitId : Nat) (year : Nat) (nowISO : String) :
    Option HabitSummaryOut :=
  match db.habits.find? (fun h => h.id == habitId) with
  | none => none
  | some habit =>
    let allHabits := db.habits
    let today := fromISODate (effectiveTodayISO habit nowISO)
    let createdAt := fromISODate habit.created_at
    let yearStart := daysFromCivil year 1 1
    let yearEnd := daysFromCivil year 12 31
    let effectiveYearStart := if createdAt < yearStart then yearStart else createdAt
    let currentWeekStart := startOfISOWeek today
    let currentWeekEnd := endOfISOWeek today
    let tc := civilFromDays today
    let currentMonthStart := daysFromCivil tc.1 tc.2.1 1
    let currentMonthEnd := endOfMonthUTC tc.1 (tc.2.1 - 1)
    let yearSummary := buildPeriodSummary db habitId effectiveYearStart yearEnd today
    let weekSummary := buildPeriodSummary db habitId currentWeekStart currentWeekEnd today
    let monthSummary := buildPeriodSummary db habitId currentMonthStart currentMonthEnd today
    let weekly := (List.range 8).map fun j =>
      let i := 7 - j
      let start := currentWeekStart - i * 7
      let end_ := start + 6
      ⟨toISODate start ++ " to " ++ toISODate end_,
       buildPeriodSummary db habitId start end_ today⟩
    let monthly := (List.range 12).map fun month =>
      let start := daysFromCivil year (month + 1) 1
      let end_ := endOfMonthUTC year month
      let effectiveStart := if start < createdAt then createdAt else start
      let summary := buildPeriodSummary db habitId effectiveStart end_ today
      ⟨monthLabel year month, if end_ < effectiveStart then ⟨0, 0, 0⟩ else summary⟩
    let completionsMap := getHabitCompletionsMap db habitId
    let streaks := computeStreaksFromMap completionsMap createdAt today
    let lifetimeCompletions :=
      ((db.checkins.filter fun r => r.habit_id == habitId).map
        fun r => r.completed).sum
    let wstats := weekdayStatsSingle completionsMap yearStart yearEnd today
    let habitComparison := allHabits.map fun entry =>
      let rowCreatedAt := fromISODate entry.created_at
      let start := if rowCreatedAt < yearStart then yearStart else rowCreatedAt
      ⟨entry.id, entry.name,
       (buildPeriodSummary db entry.id start yearEnd today).consistency⟩
    some ⟨yearSummary, weekSummary, monthSummary, weekly, monthly,
          streaks.1, streaks.2, lifetimeCompletions, wstats, habitComparison⟩

/-- The response of `GET /api/summary` (engine-computed fields). -/
structure AllSummaryOut where
  year : PeriodSummary
  currentWeek : PeriodSummary
  currentMonth : PeriodSummary
  weekly : List LabeledSummary
  monthly : List LabeledSummary
  currentStreak : Nat
  longestStreak : Nat
  lifetimeCompletions : Nat
  weekdayStats : List WeekdayStat
  habitComparison : List HabitComparisonItem
deriving DecidableEq, Repr

/-- `GET /api/summary`.  `nowISO` is `toISODate(new Date())`. -/
def buildAllHabitsSummary (db : Db) (year : Nat) (nowISO : String) :
    AllSummaryOut :=
  if db.habits.isEmpty then ⟨⟨0, 0, 0⟩, ⟨0, 0, 0⟩, ⟨0, 0, 0⟩, [], [], 0, 0, 0, [], []⟩
  else
    let habits := db.habits
    let today := fromISODate nowISO
    let yearStart := daysFromCivil year 1 1
    let yearEnd := daysFromCivil year 12 31
    let currentWeekStart := startOfISOWeek today
    let currentWeekEnd := endOfISOWeek today
    let tc := civilFromDays today
    let currentMonthStart := daysFromCivil tc.1 tc.2.1 1
    let currentMonthEnd := endOfMonthUTC tc.1 (tc.2.1 - 1)
    let checkins := db.checkins.filter fun r => strLe r.date (toISODate today)
    let cm := checkins.map fun r => (habKey r.habit_id r.date, r.completed)
    let yearSummary := buildAllPeriodSummary habits cm yearStart yearEnd today
    let weekSummary := buildAllPeriodSummary habits cm currentWeekStart currentWeekEnd today
    let monthSummary := buildAllPeriodSummary habits cm currentMonthStart currentMonthEnd today
    let weekly := (List.range 8).map fun j =>
      let i := 7 - j
      let start := currentWeekStart - i * 7
      let end_ := start + 6
      (⟨toISODate start ++ " to " ++ toISODate end_,
        buildAllPeriodSummary habits cm start end_ today⟩ : LabeledSummary)
    let monthly := (List.range 12).map fun month =>
      let start := daysFromCivil year (month + 1) 1
      let end_ := endOfMonthUTC year month
      (⟨monthLabel year month,
        buildAllPeriodSummary habits cm start end_ today⟩ : LabeledSummary)
    let currentStreak := combinedCurrentStreakAux habits cm today
    let longestStreak := combinedLongestStreak habits cm today
    let lifetimeCompletions := checkins.foldl
      (fun sum row =>
        match habits.find? (fun h => h.id == row.habit_id) with
        | none => sum
        | some habit =>
          if isHabitActiveOnDate habit row.date then
            sum + (if row.completed == 1 then 1 else 0)
          else sum)
      0
    let wstats := weekdayStatsAll habits cm yearStart yearEnd today
    let habitComparison := habits.map fun habit =>
      let rowCreatedAt := fromISODate habit.created_at
      let start := if rowCreatedAt < yearStart then yearStart else rowCreatedAt
      (⟨habit.id, habit.name,
        (buildPeriodSummary db habit.id start yearEnd today).consistency⟩ :
        HabitComparisonItem)
    ⟨yearSummary, weekSummary, monthSummary, weekly, monthly,
     currentStreak, longestStreak, lifetimeCompletions, wstats, habitComparison⟩

/-! ## Habit creation / reactivation (source: `POST /api/habits`,
`DELETE /api/habits/:habitId`) -/

/-- Outcome of `POST /api/habits`. -/
inductive CreateHabitResult where
  | badRequest
  | conflict
  | reactivated (id : Nat)
  | created (id : Nat)
deriving DecidableEq, Repr

/-- `POST /api/habits`: reject a blank name; 409 on an active habit of the
same lowercased name; otherwise reactivate the most recently deleted habit of
that name (clear `deleted_on`, set `created_at` to today, keep the row id and
all its checkins) or insert a fresh row.  `SELECT ... ORDER BY deleted_on DESC
LIMIT 1` becomes picking the entry with the largest `deleted_on`. -/
def createHabit (db : Db) (rawName : String) (todayISO : String) :
    Db × CreateHabitResult :=
  let name := trimStr rawName
  if name == "" then (db, .badRequest)
  else if (db.habits.find? fun h =>
      lowerStr h.name == lowerStr name && h.deleted_on == none).isSome then
    (db, .conflict)
  else
    match db.habits.filter (fun h =>
        lowerStr h.name == lowerStr name && h.deleted_on != none) with
    | [] =>
      let newId := (db.habits.map (fun h => h.id)).foldl max 0 + 1
      (⟨db.habits ++ [⟨newId, name, todayISO, none⟩], db.checkins⟩, .created newId)
    | h0 :: rest =>
      let chosen := rest.foldl
        (fun a b => if strLt (a.deleted_on.getD "") (b.deleted_on.getD "") then b else a) h0
      let habits' := db.habits.map fun h =>
        if h.id == chosen.id then ⟨h.id, h.name, todayISO, none⟩ else h
      (⟨habits', db.checkins⟩, .reactivated chosen.id)

/-! ## Spec-side streak formulations (for the combined scope)

These definitions restate §4.4 of the specification in its own vocabulary:
a day *qualifies* when at least one habit is active and every active habit
completed; the current streak *stops* at the first non-qualifying day
(`takeWhile` over the backward day list), and the longest streak *skips*
zero-active days (`filter`) and then takes the longest run of fully-completed
days. -/


/-- Spec §4.4: a day counts as an unbroken combined-streak day iff at least
one habit is active and every habit active that day was completed. -/
def combinedDayQualifies (habits : List HabitRow) (cm : List (String × Nat))
    (d : Nat) : Bool :=
  let iso := toISODate d
  !(activeHabitsOn habits iso).isEmpty &&
    (activeHabitsOn habits iso).all fun h => (cm.lookup (habKey h.id iso)).getD 0 == 1

/-- Whether every habit active on day `d` completed (no activity requirement). -/
def allActiveDone (habits : List HabitRow) (cm : List (String × Nat))
    (d : Nat) : Bool :=
  let iso := toISODate d
  (activeHabitsOn habits iso).all fun h => (cm.lookup (habKey h.id iso)).getD 0 == 1

/-- The backward walk's day list: `[today, today - 1, …, 0]`. -/
def backDays (today : Nat) : List Nat :=
  (List.range (today + 1)).map fun i => today - i

/-- Longest run of consecutive `true`s, tracked as `(running, best)`. -/
def longestRunAuxP : List Bool → Nat × Nat → Nat × Nat
  | [], acc => acc
  | b :: rest, acc =>
      if b then longestRunAuxP rest (acc.1 + 1, max acc.2 (acc.1 + 1))
      else longestRunAuxP rest (0, acc.2)

/-- Longest run of consecutive `true`s in a boolean list. -/
def longestRun (l : List Bool) : Nat := (longestRunAuxP l (0, 0)).2

/-! ## Spec-side weekday statistics and remaining helpers -/


/-- The weekday statistics as §4.5 of the specification words them for a
single habit: a weekday's `total` counts only *active-habit-days* (days on
which the habit is active), `done` the completed ones among them.  Written for
comparison against the source's `weekdayStatsSingle`. -/
def specWeekdayStatsSingle (habit : HabitRow) (m : List (String × Bool))
    (yearStart yearEnd today : Nat) : List WeekdayStat :=
  (List.range 7).map fun w =>
    let wdays := (weekdayLoopDays yearStart yearEnd today).filter
      fun d => weekdayOf d == w && isHabitActiveOnDate habit (toISODate d)
    let total := wdays.length
    let done := (wdays.filter fun d => lookupCompletion m (toISODate d)).length
    ⟨weekdayNames.getD w "", done, total, consistencyOf done total⟩

/-! ## Concrete scenario databases and evaluation helpers -/


/-- C1 scenario: habit created 2024-01-01; checkins completed on
2024-01-01..03, an explicit `completed = 0` record on 2024-01-04, nothing
after. -/
def dbC1 : Db :=
  ⟨[⟨1, "Read", "2024-01-01", none⟩],
   [⟨1, "2024-01-01", 1⟩, ⟨1, "2024-01-02", 1⟩, ⟨1, "2024-01-03", 1⟩,
    ⟨1, "2024-01-04", 0⟩]⟩

/-- C8 scenario: habit created 2024-03-10 (day 19792), completed every day
through 2024-03-20 (day 19802), nothing after. -/
def dbC8 : Db :=
  ⟨[⟨1, "Run5k", "2024-03-10", none⟩],
   (List.range 11).map fun i => ⟨1, toISODate (19792 + i), 1⟩⟩

/-- C4 counterexample scenario: habit created 2024-01-03, no checkins. -/
def dbC4 : Db := ⟨[⟨1, "Gym", "2024-01-03", none⟩], []⟩

/-- C9/C10 scenario: habit 1 soft-deleted on 2023-09-01, habit 2 active. -/
def dbC9 : Db :=
  ⟨[⟨1, "Read", "2023-05-01", some "2023-09-01"⟩, ⟨2, "Gym", "2023-06-01", none⟩],
   [⟨1, "2023-05-02", 1⟩]⟩

/-! ## Theorems -/

/-- `lexLtB` agrees with Lean's lexicographic order on `List Char` (with
Mathlib in scope, `<` on lists is `List.Lex (· < ·)`). -/
theorem lexLtB_iff_lt : ∀ l1 l2 : List Char, lexLtB l1 l2 = true ↔ l1 < l2
  | [], [] => by
    simp only [lexLtB]
    exact iff_of_false (by simp) (fun h => nomatch h)
  | [], b :: bs => by
    simp only [lexLtB]
    exact iff_of_true (by simp) List.Lex.nil
  | a :: as, [] => by
    simp only [lexLtB]
    exact iff_of_false (by simp) (fun h => nomatch h)
  | a :: as, b :: bs => by
    simp only [lexLtB]
    by_cases hab : a < b
    · rw [if_pos hab]
      exact iff_of_true rfl (List.Lex.rel hab)
    · rw [if_neg hab]
      by_cases hba : b < a
      · rw [if_pos hba]
        refine iff_of_false (by simp) (fun h => ?_)
        cases h with
        | rel h' => exact hab h'
        | cons _ => exact absurd hba (lt_irrefl a)
      · rw [if_neg hba]
        have heq : a = b := le_antisymm (not_lt.mp hba) (not_lt.mp hab)
        subst heq
        rw [lexLtB_iff_lt as bs]
        constructor
        · exact fun h => List.Lex.cons h
        · intro h
          cases h with
          | rel h' => exact absurd h' hab
          | cons h' => exact h'

/-- `strLt` is Lean's lexicographic `String` order. -/
theorem strLt_iff (a b : String) : strLt a b = true ↔ a < b := by
  rw [String.lt_iff_toList_lt]
  exact lexLtB_iff_lt a.data b.data

/-- `strLe` is Lean's lexicographic `String` order. -/
theorem strLe_iff (a b : String) : strLe a b = true ↔ a ≤ b := by
  rw [strLe, Bool.not_eq_true', ← Bool.not_eq_true, strLt_iff, not_lt]

/-! ## Fold characterizations of the summary builders -/

/-- A fold that adds `f x` and `g x` componentwise is the pair of sums. -/
theorem foldl_pair_add {α : Type} (l : List α) (f g : α → Nat) (a b : Nat) :
    l.foldl (fun (p : Nat × Nat) x => (p.1 + f x, p.2 + g x)) (a, b)
      = (a + (l.map f).sum, b + (l.map g).sum) := by
  induction l generalizing a b with
  | nil => simp
  | cons x xs ih => simp [List.foldl_cons, ih, Nat.add_assoc]

/-- Summing boolean indicators counts the filtered elements. -/
theorem sum_map_ite_one {α : Type} (l : List α) (p : α → Bool) :
    (l.map fun x => if p x then 1 else 0).sum = (l.filter p).length := by
  induction l with
  | nil => rfl
  | cons x xs ih =>
    by_cases h : p x
    · simp only [List.map_cons, List.sum_cons, List.filter_cons, h, if_pos, ih,
        List.length_cons]
      omega
    · simp [h, ih]

/-- `consistencyOf` of the empty summary. -/
theorem consistencyOf_zero_total (c : Nat) : consistencyOf c 0 = 0 := by
  simp [consistencyOf]

/-- The effective (today-capped) end day of a range. -/
theorem cappedEnd_eq_min (e t : Nat) : (if t < e then t else e) = min e t := by
  rw [Nat.min_def]
  split <;> (split <;> omega)

/-- A fold that accumulates `f x` is the sum of the mapped list. -/
theorem foldl_add_map {α : Type} (l : List α) (f : α → Nat) (a : Nat) :
    l.foldl (fun s x => s + f x) a = a + (l.map f).sum := by
  induction l generalizing a with
  | nil => simp
  | cons x xs ih => simp [List.foldl_cons, ih, Nat.add_assoc]

/-- The days a single-habit period summary iterates over, and the predicate it
counts: `buildPeriodSummary` is exactly a day count plus a completed-day
count over the capped range. -/
theorem buildPeriodSummary_eq (db : Db) (habitId : Nat) (s e t : Nat) :
    buildPeriodSummary db habitId s e t =
      let days := dayRange s (min e t)
      let rows := db.checkins.filter fun r =>
        r.habit_id == habitId && strLe (toISODate s) r.date
          && strLe r.date (toISODate (min e t))
      let completedMap : List (String × Bool) :=
        rows.map fun r => (r.date, r.completed == 1)
      let cnt := (days.filter fun d => (completedMap.lookup (toISODate d)).getD false).length
      ⟨cnt, days.length, consistencyOf cnt days.length⟩ := by
  rw [buildPeriodSummary, cappedEnd_eq_min]
  by_cases h : min e t < s
  · have hd : dayRange s (min e t) = [] := by
      unfold dayRange
      have : min e t + 1 - s = 0 := by omega
      rw [this]; rfl
    simp only [if_pos h, hd]
    simp [consistencyOf]
  · simp only [if_neg h]
    rw [foldl_pair_add, sum_map_ite_one]
    simp [List.length_map]

/-- `doneCountOn` counts the active habits whose record for the day is `1`. -/
theorem doneCountOn_eq_filter (habits : List HabitRow) (cm : List (String × Nat))
    (iso : String) :
    doneCountOn habits cm iso =
      ((activeHabitsOn habits iso).filter fun h =>
        (cm.lookup (habKey h.id iso)).getD 0 == 1).length := by
  unfold doneCountOn
  rw [foldl_add_map, sum_map_ite_one]
  simp

/-- The combined period summary is the pair of per-day sums: each day
contributes `(activeHabitsOn …).length` to `total` and `doneCountOn …` to
`completed`, over the capped day range. -/
theorem buildAllPeriodSummary_eq (habits : List HabitRow)
    (cm : List (String × Nat)) (s e t : Nat) :
    buildAllPeriodSummary habits cm s e t =
      let days := dayRange s (min e t)
      let cnt := (days.map fun d => doneCountOn habits cm (toISODate d)).sum
      let tot := (days.map fun d => (activeHabitsOn habits (toISODate d)).length).sum
      ⟨cnt, tot, consistencyOf cnt tot⟩ := by
  rw [buildAllPeriodSummary, cappedEnd_eq_min]
  by_cases h : min e t < s
  · have hd : dayRange s (min e t) = [] := by
      unfold dayRange
      have : min e t + 1 - s = 0 := by omega
      rw [this]; rfl
    simp only [if_pos h, hd]
    simp [consistencyOf]
  · simp only [if_neg h]
    have step : ∀ (acc : Nat × Nat) (d : Nat),
        (let iso := toISODate d
         let activeHabits := activeHabitsOn habits iso
         if activeHabits.isEmpty then acc
         else activeHabits.foldl
           (fun (acc2 : Nat × Nat) h =>
             (acc2.1 + (if (cm.lookup (habKey h.id iso)).getD 0 == 1 then 1 else 0),
              acc2.2 + 1))
           acc)
          = (acc.1 + doneCountOn habits cm (toISODate d),
             acc.2 + (activeHabitsOn habits (toISODate d)).length) := by
      intro acc d
      simp only
      by_cases hemp : (activeHabitsOn habits (toISODate d)).isEmpty
      · rw [if_pos hemp]
        rw [List.isEmpty_iff] at hemp
        simp [doneCountOn, hemp]
      · rw [if_neg hemp]
        rw [foldl_pair_add (activeHabitsOn habits (toISODate d))
          (fun h => if (cm.lookup (habKey h.id (toISODate d))).getD 0 == 1 then 1 else 0)
          (fun _ => 1) acc.1 acc.2]
        have hdc : doneCountOn habits cm (toISODate d)
            = ((activeHabitsOn habits (toISODate d)).map fun h =>
                if (cm.lookup (habKey h.id (toISODate d))).getD 0 == 1 then 1 else 0).sum := by
          rw [doneCountOn_eq_filter, sum_map_ite_one]
        have hlen : ((activeHabitsOn habits (toISODate d)).map fun _ => (1 : Nat)).sum
            = (activeHabitsOn habits (toISODate d)).length := by
          simp [List.map_const]
        rw [hdc, hlen]
    have main : ∀ (days : List Nat) (acc : Nat × Nat),
        days.foldl (fun acc d =>
          let iso := toISODate d
          let activeHabits := activeHabitsOn habits iso
          if activeHabits.isEmpty then acc
          else activeHabits.foldl
            (fun (acc2 : Nat × Nat) h =>
              (acc2.1 + (if (cm.lookup (habKey h.id iso)).getD 0 == 1 then 1 else 0),
               acc2.2 + 1))
            acc) acc
          = (acc.1 + (days.map fun d => doneCountOn habits cm (toISODate d)).sum,
             acc.2 + (days.map fun d => (activeHabitsOn habits (toISODate d)).length).sum) := by
      intro days
      induction days with
      | nil => simp
      | cons d ds ih =>
        intro acc
        rw [List.foldl_cons, step acc d, ih]
        simp [Nat.add_assoc]
    rw [main]
    simp

/-! ## Arithmetic facts about `round1` and `consistencyOf` -/


/-- Value of `round1` pinned by floor bounds. -/
theorem round1_eq_of (q : ℚ) (k : ℤ) (h1 : (k : ℚ) ≤ q * 10 + 1 / 2)
    (h2 : q * 10 + 1 / 2 < k + 1) : round1 q = (k : ℚ) / 10 := by
  rw [round1]
  congr 1
  exact_mod_cast Int.floor_eq_iff.mpr ⟨h1, by exact_mod_cast h2⟩

/-- `round1` keeps a value of `[0, 100]` inside `[0, 100]`. -/
theorem round1_bounds (q : ℚ) (h0 : 0 ≤ q) (h100 : q ≤ 100) :
    0 ≤ round1 q ∧ round1 q ≤ 100 := by
  have hfl : (0 : ℤ) ≤ ⌊q * 10 + 1 / 2⌋ := by
    rw [Int.le_floor]
    push_cast
    linarith
  have hfu : ⌊q * 10 + 1 / 2⌋ ≤ 1000 := by
    have : ⌊q * 10 + 1 / 2⌋ < 1001 := by
      rw [Int.floor_lt]
      push_cast
      linarith
    omega
  constructor
  · rw [round1]
    positivity
  · rw [round1, div_le_iff₀ (by norm_num : (0:ℚ) < 10)]
    calc ((⌊q * 10 + 1 / 2⌋ : ℤ) : ℚ) ≤ ((1000 : ℤ) : ℚ) := by exact_mod_cast hfu
    _ = 100 * 10 := by norm_num

/-- `consistencyOf` always lies in `[0, 100]` when `completed ≤ total`. -/
theorem consistencyOf_bounds (c t : Nat) (hct : c ≤ t) :
    0 ≤ consistencyOf c t ∧ consistencyOf c t ≤ 100 := by
  rw [consistencyOf]
  by_cases ht : t = 0
  · simp [ht]
  · rw [if_neg ht]
    have htpos : (0 : ℚ) < t := by
      have : 0 < t := Nat.pos_of_ne_zero ht
      exact_mod_cast this
    apply round1_bounds
    · positivity
    · have hdiv : (c : ℚ) / (t : ℚ) ≤ 1 := by
        rw [div_le_one htpos]
        exact_mod_cast hct
      calc (c : ℚ) / (t : ℚ) * 100 ≤ 1 * 100 := by
            apply mul_le_mul_of_nonneg_right hdiv
            norm_num
      _ = 100 := by norm_num

/-- In every single-habit period summary, `completed ≤ total`. -/
theorem buildPeriodSummary_completed_le (db : Db) (habitId s e t : Nat) :
    (buildPeriodSummary db habitId s e t).completed
      ≤ (buildPeriodSummary db habitId s e t).total := by
  rw [buildPeriodSummary_eq]
  exact List.length_filter_le _ _

/-- In every combined period summary, `completed ≤ total`. -/
theorem buildAllPeriodSummary_completed_le (habits : List HabitRow)
    (cm : List (String × Nat)) (s e t : Nat) :
    (buildAllPeriodSummary habits cm s e t).completed
      ≤ (buildAllPeriodSummary habits cm s e t).total := by
  rw [buildAllPeriodSummary_eq]
  simp only
  apply List.sum_le_sum
  intro d _
  rw [doneCountOn_eq_filter]
  exact List.length_filter_le _ _

/-- Both summary builders emit `consistency = consistencyOf completed total`. -/
theorem summary_consistency_shape (db : Db) (habits : List HabitRow)
    (cm : List (String × Nat)) (habitId s e t : Nat) :
    (buildPeriodSummary db habitId s e t).consistency
        = consistencyOf (buildPeriodSummary db habitId s e t).completed
            (buildPeriodSummary db habitId s e t).total
      ∧ (buildAllPeriodSummary habits cm s e t).consistency
        = consistencyOf (buildAllPeriodSummary habits cm s e t).completed
            (buildAllPeriodSummary habits cm s e t).total := by
  rw [buildPeriodSummary_eq, buildAllPeriodSummary_eq]
  exact ⟨rfl, rfl⟩

/-- The done-count test of the source loops is the spec's "every active habit
completed" test. -/
theorem doneCount_eq_length_iff_all (habits : List HabitRow)
    (cm : List (String × Nat)) (iso : String) :
    (doneCountOn habits cm iso = (activeHabitsOn habits iso).length)
      ↔ ((activeHabitsOn habits iso).all fun h =>
          (cm.lookup (habKey h.id iso)).getD 0 == 1) = true := by
  rw [doneCountOn_eq_filter, List.filter_length_eq_length, List.all_eq_true]

/-- The spec's "qualifying day" test, unfolded to the tests the source loops
perform. -/
theorem combinedDayQualifies_iff (habits : List HabitRow)
    (cm : List (String × Nat)) (d : Nat) :
    combinedDayQualifies habits cm d = true
      ↔ (activeHabitsOn habits (toISODate d)).length ≠ 0
        ∧ doneCountOn habits cm (toISODate d)
            = (activeHabitsOn habits (toISODate d)).length := by
  rw [combinedDayQualifies]
  simp only [Bool.and_eq_true, Bool.not_eq_true', ← doneCount_eq_length_iff_all]
  constructor
  · rintro ⟨h1, h2⟩
    refine ⟨?_, h2⟩
    intro h0
    rw [← List.isEmpty_iff_length_eq_zero] at h0
    rw [h0] at h1
    cases h1
  · rintro ⟨h1, h2⟩
    refine ⟨?_, h2⟩
    rw [← Bool.not_eq_true, List.isEmpty_iff_length_eq_zero]
    exact h1

/-- Unfolding `backDays` one step. -/
theorem backDays_succ (t : Nat) : backDays (t + 1) = (t + 1) :: backDays t := by
  unfold backDays
  rw [List.range_succ_eq_map]
  simp only [List.map_cons, Nat.sub_zero, List.map_map]
  congr 1
  apply List.map_congr_left
  intro i _
  simp only [Function.comp_apply]
  omega

/-- The source's combined current-streak backward walk is the spec's
`takeWhile` over the backward day list: it stops at the first day with zero
active habits or with an uncompleted active habit. -/
theorem combinedCurrentStreak_eq_takeWhile (habits : List HabitRow)
    (cm : List (String × Nat)) :
    ∀ today : Nat,
      combinedCurrentStreakAux habits cm today
        = ((backDays today).takeWhile (combinedDayQualifies habits cm)).length := by
  have hbranch : ∀ (d : Nat) (k : Nat → Nat),
      (let iso := toISODate d
       let active := activeHabitsOn habits iso
       if active.length == 0 then 0
       else if doneCountOn habits cm iso == active.length then k 1
       else 0)
        = if combinedDayQualifies habits cm d then k 1 else 0 := by
    intro d k
    simp only
    by_cases hlen : (activeHabitsOn habits (toISODate d)).length = 0
    · have hq : ¬ combinedDayQualifies habits cm d = true := fun hq =>
        ((combinedDayQualifies_iff habits cm d).mp hq).1 hlen
      rw [if_pos (beq_iff_eq.mpr hlen), if_neg hq]
    · rw [if_neg (by rw [beq_iff_eq]; exact hlen)]
      by_cases hdone : doneCountOn habits cm (toISODate d)
          = (activeHabitsOn habits (toISODate d)).length
      · have hq : combinedDayQualifies habits cm d = true :=
          (combinedDayQualifies_iff habits cm d).mpr ⟨hlen, hdone⟩
        rw [if_pos (beq_iff_eq.mpr hdone), if_pos hq]
      · have hq : ¬ combinedDayQualifies habits cm d = true := fun hq =>
          hdone ((combinedDayQualifies_iff habits cm d).mp hq).2
        rw [if_neg (by rw [beq_iff_eq]; exact hdone), if_neg hq]
  intro today
  induction today with
  | zero =>
    rw [combinedCurrentStreakAux]
    have hb : backDays 0 = [0] := by rfl
    rw [hb, List.takeWhile_cons]
    rw [hbranch 0 (fun n => n)]
    by_cases hq : combinedDayQualifies habits cm 0
    · rw [if_pos hq, if_pos hq]
      rfl
    · rw [if_neg hq, if_neg hq]
      rfl
  | succ t ih =>
    rw [combinedCurrentStreakAux]
    rw [backDays_succ, List.takeWhile_cons]
    rw [hbranch (t + 1) (fun n => n + combinedCurrentStreakAux habits cm t)]
    by_cases hq : combinedDayQualifies habits cm (t + 1)
    · rw [if_pos hq, if_pos hq, List.length_cons, ih]
      omega
    · rw [if_neg hq, if_neg hq]
      rfl

/-- `if a < b then b else a` is `max`. -/
theorem ite_lt_eq_max (a b : Nat) : (if a < b then b else a) = max a b := by
  rw [Nat.max_def]
  split <;> (split <;> omega)

/-- The source's combined longest-streak fold equals the spec formulation:
zero-active days are dropped (`filter`, not a reset), and the longest run of
all-active-done days among the remaining days is returned. -/
theorem combinedLongest_foldl_eq (habits : List HabitRow)
    (cm : List (String × Nat)) :
    ∀ (days : List Nat) (acc : Nat × Nat),
      days.foldl
        (fun (acc : Nat × Nat) d =>
          let iso := toISODate d
          let active := activeHabitsOn habits iso
          if active.length == 0 then acc
          else if doneCountOn habits cm iso == active.length then
            let running := acc.1 + 1
            (running, if acc.2 < running then running else acc.2)
          else (0, acc.2))
        acc
      = longestRunAuxP
          (((days.filter fun d =>
              !(activeHabitsOn habits (toISODate d)).isEmpty).map
            (allActiveDone habits cm)))
          acc := by
  intro days
  induction days with
  | nil => intro acc; rfl
  | cons d ds ih =>
    intro acc
    rw [List.foldl_cons, List.filter_cons]
    by_cases hlen : (activeHabitsOn habits (toISODate d)).length = 0
    · have hnil : activeHabitsOn habits (toISODate d) = [] :=
        List.length_eq_zero.mp hlen
      simp only [hnil, List.length_nil, List.isEmpty_nil, Bool.not_true,
        Bool.false_eq_true, if_false, beq_self_eq_true, if_true, ih]
    · have h1 : ((activeHabitsOn habits (toISODate d)).length == 0) = false := by
        simpa using hlen
      have hnil : activeHabitsOn habits (toISODate d) ≠ [] := by
        intro h
        exact hlen (by simp [h])
      have hemp : ((activeHabitsOn habits (toISODate d)).isEmpty) = false := by
        simpa using hnil
      by_cases hdone : doneCountOn habits cm (toISODate d)
          = (activeHabitsOn habits (toISODate d)).length
      · have h2 : (doneCountOn habits cm (toISODate d)
            == (activeHabitsOn habits (toISODate d)).length) = true :=
          beq_iff_eq.mpr hdone
        have hq : allActiveDone habits cm d = true := by
          show ((activeHabitsOn habits (toISODate d)).all fun h =>
            (cm.lookup (habKey h.id (toISODate d))).getD 0 == 1) = true
          rw [← doneCount_eq_length_iff_all]
          exact hdone
        simp only [h1, h2, hemp, hq, Bool.false_eq_true, Bool.not_false,
          if_false, if_true, List.map_cons, longestRunAuxP, ih]
        simp only [ite_lt_eq_max]
      · have h2 : (doneCountOn habits cm (toISODate d)
            == (activeHabitsOn habits (toISODate d)).length) = false := by
          simpa using hdone
        have hq : allActiveDone habits cm d = false := by
          rw [← Bool.not_eq_true]
          show ¬ ((activeHabitsOn habits (toISODate d)).all fun h =>
            (cm.lookup (habKey h.id (toISODate d))).getD 0 == 1) = true
          rw [← doneCount_eq_length_iff_all]
          exact hdone
        simp only [h1, h2, hemp, hq, Bool.false_eq_true, Bool.not_false,
          if_false, if_true, List.map_cons, longestRunAuxP, ih]

/-- `combinedLongestStreak` is the spec formulation: filter out zero-active
days from the scan range, then take the longest all-done run. -/
theorem combinedLongestStreak_eq_longestRun (habits : List HabitRow)
    (cm : List (String × Nat)) (today : Nat) (s : String)
    (hs : earliestCreated habits = some s) :
    combinedLongestStreak habits cm today
      = longestRun
          (((dayRange (fromISODate s) today).filter fun d =>
              !(activeHabitsOn habits (toISODate d)).isEmpty).map
            (allActiveDone habits cm)) := by
  rw [combinedLongestStreak, hs]
  simp only
  rw [combinedLongest_foldl_eq]
  rfl

/-! ## Lexicographic order on zero-padded ISO dates (for the lifecycle
filter's correctness) -/


set_option maxRecDepth 4000 in
/-- Two-digit blocks compare like the numbers they encode. -/
theorem pad2_lexLtB_iff : ∀ a : Nat, a < 100 → ∀ b : Nat, b < 100 →
    (lexLtB (pad2 a) (pad2 b) = true ↔ a < b) := by decide

set_option maxRecDepth 4000 in
/-- Two-digit blocks are equal exactly for equal numbers. -/
theorem pad2_inj_iff : ∀ a : Nat, a < 100 → ∀ b : Nat, b < 100 →
    (pad2 a = pad2 b ↔ a = b) := by decide

/-- `pad2` always has length 2. -/
theorem pad2_length (n : Nat) : (pad2 n).length = 2 := rfl

/-- Skipping a common head character in a lexicographic comparison. -/
theorem lexLtB_cons_same (c : Char) (r1 r2 : List Char) :
    lexLtB (c :: r1) (c :: r2) = lexLtB r1 r2 := by
  simp [lexLtB, lt_irrefl]

/-- Lexicographic comparison of equal-length blocks followed by tails:
compare the blocks, and on equal blocks compare the tails. -/
theorem lexLtB_append_iff : ∀ l1 l2 : List Char, l1.length = l2.length →
    ∀ r1 r2 : List Char,
      (lexLtB (l1 ++ r1) (l2 ++ r2) = true
        ↔ lexLtB l1 l2 = true ∨ (l1 = l2 ∧ lexLtB r1 r2 = true))
  | [], [], _ => by
    intro r1 r2
    simp [lexLtB]
  | [], b :: bs, h => by simp at h
  | a :: as, [], h => by simp at h
  | a :: as, b :: bs, h => by
    intro r1 r2
    simp only [List.cons_append, lexLtB, List.append_eq]
    by_cases hab : a < b
    · rw [if_pos hab, if_pos hab]
      simp
    · rw [if_neg hab, if_neg hab]
      by_cases hba : b < a
      · rw [if_pos hba, if_pos hba]
        constructor
        · intro hf
          cases hf
        · intro hf
          rcases hf with hf | ⟨heq, _⟩
          · cases hf
          · cases heq
            exact absurd hba (lt_irrefl a)
      · rw [if_neg hba, if_neg hba]
        have heq : a = b := le_antisymm (not_lt.mp hba) (not_lt.mp hab)
        subst heq
        rw [lexLtB_append_iff as bs (by simpa using h) r1 r2]
        constructor
        · rintro (hlt | ⟨heq, hr⟩)
          · exact Or.inl hlt
          · exact Or.inr ⟨by rw [heq], hr⟩
        · rintro (hlt | ⟨heq, hr⟩)
          · exact Or.inl hlt
          · exact Or.inr ⟨by injection heq, hr⟩

/-- Four-digit blocks compare like the numbers they encode. -/
theorem pad4_lexLtB_iff (a : Nat) (ha : a < 10000) (b : Nat) (hb : b < 10000) :
    lexLtB (pad4 a) (pad4 b) = true ↔ a < b := by
  rw [pad4, pad4,
    lexLtB_append_iff (pad2 (a / 100)) (pad2 (b / 100)) (by rw [pad2_length, pad2_length])]
  rw [pad2_lexLtB_iff (a / 100) (by omega) (b / 100) (by omega)]
  rw [pad2_inj_iff (a / 100) (by omega) (b / 100) (by omega)]
  rw [pad2_lexLtB_iff (a % 100) (by omega) (b % 100) (by omega)]
  omega

/-- Four-digit blocks are equal exactly for equal numbers. -/
theorem pad4_inj_iff (a : Nat) (ha : a < 10000) (b : Nat) (hb : b < 10000) :
    pad4 a = pad4 b ↔ a = b := by
  rw [pad4, pad4]
  constructor
  · intro h
    have := List.append_inj h (by rw [pad2_length, pad2_length])
    rcases this with ⟨h1, h2⟩
    rw [pad2_inj_iff (a / 100) (by omega) (b / 100) (by omega)] at h1
    rw [pad2_inj_iff (a % 100) (by omega) (b % 100) (by omega)] at h2
    omega
  · intro h
    rw [h]

/-- Lexicographic order on `"YYYY-MM-DD"` strings is the calendar
(year, then month, then day) order. -/
theorem isoString_lt_iff (y1 m1 d1 y2 m2 d2 : Nat)
    (hy1 : y1 < 10000) (hm1 : m1 < 100) (hd1 : d1 < 100)
    (hy2 : y2 < 10000) (hm2 : m2 < 100) (hd2 : d2 < 100) :
    isoStringOfYMD y1 m1 d1 < isoStringOfYMD y2 m2 d2
      ↔ (y1 < y2 ∨ (y1 = y2 ∧ (m1 < m2 ∨ (m1 = m2 ∧ d1 < d2)))) := by
  rw [← strLt_iff]
  show lexLtB (pad4 y1 ++ '-' :: (pad2 m1 ++ '-' :: pad2 d1))
      (pad4 y2 ++ '-' :: (pad2 m2 ++ '-' :: pad2 d2)) = true ↔ _
  rw [lexLtB_append_iff (pad4 y1) (pad4 y2)
    (by rw [pad4, pad4]; simp [pad2_length])]
  rw [lexLtB_cons_same]
  rw [lexLtB_append_iff (pad2 m1) (pad2 m2) (by rw [pad2_length, pad2_length])]
  rw [lexLtB_cons_same]
  rw [pad4_lexLtB_iff y1 hy1 y2 hy2, pad4_inj_iff y1 hy1 y2 hy2,
    pad2_lexLtB_iff m1 hm1 m2 hm2, pad2_inj_iff m1 hm1 m2 hm2,
    pad2_lexLtB_iff d1 hd1 d2 hd2]

/-- Membership in the inclusive day range. -/
theorem mem_dayRange (d s t : Nat) : d ∈ dayRange s t ↔ s ≤ d ∧ d ≤ t := by
  unfold dayRange
  simp only [List.mem_map, List.mem_range]
  constructor
  · rintro ⟨i, hi, rfl⟩
    omega
  · rintro ⟨h1, h2⟩
    exact ⟨d - s, by omega, by omega⟩

/-- Dropping list elements that contribute `0` does not change a sum. -/
theorem sum_map_filter_of_zero {α : Type} (l : List α) (p : α → Bool)
    (f : α → Nat) (h : ∀ x ∈ l, p x = false → f x = 0) :
    ((l.filter p).map f).sum = (l.map f).sum := by
  induction l with
  | nil => rfl
  | cons x xs ih =>
    rw [List.filter_cons]
    by_cases hp : p x
    · rw [if_pos (by simpa using hp)]
      simp only [List.map_cons, List.sum_cons]
      rw [ih fun y hy hz => h y (List.mem_cons_of_mem x hy) hz]
    · rw [if_neg (by simpa using hp)]
      simp only [List.map_cons, List.sum_cons]
      rw [ih fun y hy hz => h y (List.mem_cons_of_mem x hy) hz,
        h x (List.mem_cons_self x xs) (by simpa using hp)]
      omega

/-- The element picked by a binary-choice fold is in the list. -/
theorem foldl_choice_mem {α : Type} (g : α → α → Bool) :
    ∀ (l : List α) (a : α),
      l.foldl (fun x y => if g x y then y else x) a ∈ a :: l
  | [], a => List.mem_singleton.mpr rfl
  | b :: bs, a => by
    rw [List.foldl_cons]
    by_cases h : g a b
    · rw [if_pos h]
      have := foldl_choice_mem g bs b
      simp only [List.mem_cons] at this ⊢
      tauto
    · rw [if_neg h]
      have := foldl_choice_mem g bs a
      simp only [List.mem_cons] at this ⊢
      tauto

/-- Assemble a concrete `PeriodSummary` value from its decidable `Nat`
fields, the consistency-shape fact, and an evaluated `consistencyOf`. -/
theorem periodSummary_eq_mk (ps : PeriodSummary) (c t : Nat) (q : ℚ)
    (hshape : ps.consistency = consistencyOf ps.completed ps.total)
    (hc : ps.completed = c) (ht : ps.total = t)
    (hq : consistencyOf c t = q) : ps = ⟨c, t, q⟩ := by
  cases ps with
  | mk a b r =>
    simp only at hshape hc ht
    subst hc
    subst ht
    rw [hshape, hq]

/-- Pin a concrete `consistencyOf` value through the floor bounds. -/
theorem consistencyOf_eval (c t : Nat) (k : ℤ) (ht : t ≠ 0)
    (h1 : (k : ℚ) ≤ (c : ℚ) / (t : ℚ) * 100 * 10 + 1 / 2)
    (h2 : (c : ℚ) / (t : ℚ) * 100 * 10 + 1 / 2 < k + 1) :
    consistencyOf c t = (k : ℚ) / 10 := by
  rw [consistencyOf, if_neg ht]
  exact round1_eq_of _ k h1 h2

/-- The `[0,100]` / rounding contract of a summary with
`completed ≤ total`. -/
theorem consistency_props (ps : PeriodSummary)
    (hshape : ps.consistency = consistencyOf ps.completed ps.total)
    (hle : ps.completed ≤ ps.total) :
    0 ≤ ps.consistency ∧ ps.consistency ≤ 100
      ∧ (ps.total ≠ 0 →
          ps.consistency = round1 ((ps.completed : ℚ) / (ps.total : ℚ) * 100))
      ∧ (ps.total = 0 → ps.consistency = 0) := by
  obtain ⟨hb0, hb100⟩ := consistencyOf_bounds ps.completed ps.total hle
  refine ⟨hshape ▸ hb0, hshape ▸ hb100, ?_, ?_⟩
  · intro ht
    rw [hshape, consistencyOf, if_neg ht]
  · intro ht
    rw [hshape, ht, consistencyOf_zero_total]

/-- **C2**: for every date range and every set of habits, the combined period
summary adds 1 to `total` per habit active on each day of the today-capped
range and 1 to `completed` per active habit whose checkin record for that day
is `1`; a day with zero active habits contributes nothing (restricting the
range to days with at least one active habit leaves both sums unchanged). -/
theorem C2_all_period_summary_per_day (habits : List HabitRow)
    (cm : List (String × Nat)) (s e t : Nat) :
    (buildAllPeriodSummary habits cm s e t).total
        = ((dayRange s (min e t)).map fun d =>
            (activeHabitsOn habits (toISODate d)).length).sum
    ∧ (buildAllPeriodSummary habits cm s e t).completed
        = ((dayRange s (min e t)).map fun d =>
            ((activeHabitsOn habits (toISODate d)).filter fun h =>
              (cm.lookup (habKey h.id (toISODate d))).getD 0 == 1).length).sum
    ∧ ((((dayRange s (min e t)).filter fun d =>
            !(activeHabitsOn habits (toISODate d)).isEmpty).map fun d =>
            (activeHabitsOn habits (toISODate d)).length).sum
        = ((dayRange s (min e t)).map fun d =>
            (activeHabitsOn habits (toISODate d)).length).sum
      ∧ (((dayRange s (min e t)).filter fun d =>
            !(activeHabitsOn habits (toISODate d)).isEmpty).map fun d =>
            ((activeHabitsOn habits (toISODate d)).filter fun h =>
              (cm.lookup (habKey h.id (toISODate d))).getD 0 == 1).length).sum
        = ((dayRange s (min e t)).map fun d =>
            ((activeHabitsOn habits (toISODate d)).filter fun h =>
              (cm.lookup (habKey h.id (toISODate d))).getD 0 == 1).length).sum) := by
  have hB := buildAllPeriodSummary_eq habits cm s e t
  refine ⟨?_, ?_, ?_, ?_⟩
  · rw [hB]
  · rw [hB]
    simp only
    congr 1
    apply List.map_congr_left
    intro d _
    rw [doneCountOn_eq_filter]
  · apply sum_map_filter_of_zero
    intro d _ hd
    simp only [Bool.not_eq_false'] at hd
    rw [List.isEmpty_iff] at hd
    rw [hd]
    rfl
  · apply sum_map_filter_of_zero
    intro d _ hd
    simp only [Bool.not_eq_false'] at hd
    rw [List.isEmpty_iff] at hd
    rw [hd]
    rfl

/-- **C3**: in the combined scope the two streak computations treat
zero-active-habit days asymmetrically.  The current-streak backward walk from
today equals a `takeWhile` whose predicate *requires at least one active
habit*, so a zero-active day terminates the streak; the longest-streak
forward scan from the earliest creation date equals the longest all-done run
over the day list with zero-active days *filtered out*, so such days are
skipped without resetting the counter, which only an uncompleted active habit
resets. -/
theorem C3_streak_zero_active_asymmetry (habits : List HabitRow)
    (cm : List (String × Nat)) :
    (∀ today : Nat,
      combinedCurrentStreakAux habits cm today
        = ((backDays today).takeWhile (combinedDayQualifies habits cm)).length)
    ∧ (∀ (today : Nat) (s : String), earliestCreated habits = some s →
        combinedLongestStreak habits cm today
          = longestRun
              (((dayRange (fromISODate s) today).filter fun d =>
                  !(activeHabitsOn habits (toISODate d)).isEmpty).map
                (allActiveDone habits cm))) :=
  ⟨combinedCurrentStreak_eq_takeWhile habits cm,
   fun today s hs => combinedLongestStreak_eq_longestRun habits cm today s hs⟩

/-- Witness for C3 at a concrete database. -/
theorem C3_streak_zero_active_asymmetry_witness :
    earliestCreated dbC9.habits = some "2023-05-01"
    ∧ combinedLongestStreak dbC9.habits [] 19723
        = longestRun
            (((dayRange (fromISODate "2023-05-01") 19723).filter fun d =>
                !(activeHabitsOn dbC9.habits (toISODate d)).isEmpty).map
              (allActiveDone dbC9.habits [])) :=
  ⟨by decide,
   (C3_streak_zero_active_asymmetry dbC9.habits []).2 19723 "2023-05-01" (by decide)⟩

/-- **C5**: whenever the effective end `min(end, today)` precedes the start —
future-only ranges and inverted ranges alike — both summary builders return
the `{completed := 0, total := 0, consistency := 0}` value (both are total
functions, so no fault is possible). -/
theorem C5_empty_capped_range (db : Db) (habits : List HabitRow)
    (cm : List (String × Nat)) (habitId s e t : Nat) (h : min e t < s) :
    buildPeriodSummary db habitId s e t = ⟨0, 0, 0⟩
      ∧ buildAllPeriodSummary habits cm s e t = ⟨0, 0, 0⟩ := by
  constructor
  · rw [buildPeriodSummary, cappedEnd_eq_min, if_pos h]
  · rw [buildAllPeriodSummary, cappedEnd_eq_min, if_pos h]

/-- Witness for C5: a range entirely in the future (today 19723 before the
start 20000 of the range 20000..20010). -/
theorem C5_empty_capped_range_witness :
    min 20010 19723 < 20000
    ∧ buildPeriodSummary dbC1 1 20000 20010 19723 = ⟨0, 0, 0⟩
    ∧ buildAllPeriodSummary dbC1.habits [] 20000 20010 19723 = ⟨0, 0, 0⟩ := by
  refine ⟨by decide, ?_, ?_⟩
  · exact (C5_empty_capped_range dbC1 dbC1.habits [] 1 20000 20010 19723 (by decide)).1
  · exact (C5_empty_capped_range dbC1 dbC1.habits [] 1 20000 20010 19723 (by decide)).2

/-- **C6**: every period summary (single-habit or combined) has
`consistency ∈ [0, 100]`; it equals `completed/total*100` rounded to one
decimal whenever `total > 0`, and `0` when `total = 0`. -/
theorem C6_consistency_contract (db : Db) (habits : List HabitRow)
    (cm : List (String × Nat)) (habitId s e t : Nat) :
    (0 ≤ (buildPeriodSummary db habitId s e t).consistency
      ∧ (buildPeriodSummary db habitId s e t).consistency ≤ 100
      ∧ ((buildPeriodSummary db habitId s e t).total ≠ 0 →
          (buildPeriodSummary db habitId s e t).consistency
            = round1 (((buildPeriodSummary db habitId s e t).completed : ℚ)
                / ((buildPeriodSummary db habitId s e t).total : ℚ) * 100))
      ∧ ((buildPeriodSummary db habitId s e t).total = 0 →
          (buildPeriodSummary db habitId s e t).consistency = 0))
    ∧ (0 ≤ (buildAllPeriodSummary habits cm s e t).consistency
      ∧ (buildAllPeriodSummary habits cm s e t).consistency ≤ 100
      ∧ ((buildAllPeriodSummary habits cm s e t).total ≠ 0 →
          (buildAllPeriodSummary habits cm s e t).consistency
            = round1 (((buildAllPeriodSummary habits cm s e t).completed : ℚ)
                / ((buildAllPeriodSummary habits cm s e t).total : ℚ) * 100))
      ∧ ((buildAllPeriodSummary habits cm s e t).total = 0 →
          (buildAllPeriodSummary habits cm s e t).consistency = 0)) := by
  constructor
  · exact consistency_props _ (summary_consistency_shape db habits cm habitId s e t).1
      (buildPeriodSummary_completed_le db habitId s e t)
  · exact consistency_props _ (summary_consistency_shape db habits cm habitId s e t).2
      (buildAllPeriodSummary_completed_le habits cm s e t)

/-- Witness for C6 at the C1 database (a nonzero and a zero `total`). -/
theorem C6_consistency_contract_witness :
    ((buildPeriodSummary dbC1 1 19723 20088 19727).total ≠ 0
      ∧ (buildPeriodSummary dbC1 1 19723 20088 19727).consistency
          = round1 (((buildPeriodSummary dbC1 1 19723 20088 19727).completed : ℚ)
              / ((buildPeriodSummary dbC1 1 19723 20088 19727).total : ℚ) * 100))
    ∧ ((buildAllPeriodSummary dbC1.habits [] 20000 20010 19723).total = 0
      ∧ (buildAllPeriodSummary dbC1.habits [] 20000 20010 19723).consistency = 0) := by
  constructor
  · refine ⟨by decide, ?_⟩
    exact (C6_consistency_contract dbC1 dbC1.habits [] 1 19723 20088 19727).1.2.2.1
      (by decide)
  · refine ⟨by decide, ?_⟩
    exact (C6_consistency_contract dbC1 dbC1.habits [] 1 20000 20010 19723).2.2.2.2
      (by decide)

set_option maxRecDepth 40000 in
/-- **C1**: the year summary of `buildHabitSummary(habitId, year)` is the
single-habit period summary over `[max(yearStart, createdAt), yearEnd]`
capped at (effective) today; concretely, for a habit created 2024-01-01 with
completed checkins on 2024-01-01..03 and a false record after, evaluated with
today = 2024-01-05, it is `{completed := 3, total := 5, consistency := 60.0}`. -/
theorem C1_year_summary_end_to_end :
    (∀ (db : Db) (hid y : Nat) (now : String) (habit : HabitRow),
      db.habits.find? (fun h => h.id == hid) = some habit →
      ∃ o, buildHabitSummary db hid y now = some o ∧
        o.year = buildPeriodSummary db hid
          (max (daysFromCivil y 1 1) (fromISODate habit.created_at))
          (daysFromCivil y 12 31) (fromISODate (effectiveTodayISO habit now)))
    ∧ (buildHabitSummary dbC1 1 2024 "2024-01-05").map (fun o => o.year)
        = some ⟨3, 5, 60⟩ := by
  have hgen : ∀ (db : Db) (hid y : Nat) (now : String) (habit : HabitRow),
      db.habits.find? (fun h => h.id == hid) = some habit →
      ∃ o, buildHabitSummary db hid y now = some o ∧
        o.year = buildPeriodSummary db hid
          (max (daysFromCivil y 1 1) (fromISODate habit.created_at))
          (daysFromCivil y 12 31) (fromISODate (effectiveTodayISO habit now)) := by
    intro db hid y now habit hfind
    simp only [buildHabitSummary, hfind]
    refine ⟨_, rfl, ?_⟩
    rw [ite_lt_eq_max, Nat.max_comm]
  refine ⟨hgen, ?_⟩
  obtain ⟨o, ho, hoyear⟩ :=
    hgen dbC1 1 2024 "2024-01-05" ⟨1, "Read", "2024-01-01", none⟩ (by decide)
  rw [ho]
  show some o.year = some (⟨3, 5, 60⟩ : PeriodSummary)
  rw [hoyear]
  have hstart : max (daysFromCivil 2024 1 1) (fromISODate "2024-01-01") = 19723 := by
    decide
  have hend : daysFromCivil 2024 12 31 = 20088 := by decide
  have htoday :
      fromISODate (effectiveTodayISO ⟨1, "Read", "2024-01-01", none⟩ "2024-01-05")
        = 19727 := by decide
  rw [hstart, hend, htoday]
  congr 1
  apply periodSummary_eq_mk _ 3 5 60
      (summary_consistency_shape dbC1 [] [] 1 19723 20088 19727).1
      (by decide) (by decide)
  have h60 := consistencyOf_eval 3 5 600 (by norm_num) (by norm_num) (by norm_num)
  rw [h60]
  norm_num

/-- Witness for C1: the general year-window conjunct applied at the concrete
C1 database. -/
theorem C1_year_summary_end_to_end_witness :
    dbC1.habits.find? (fun h => h.id == 1)
        = some ⟨1, "Read", "2024-01-01", none⟩
    ∧ ∃ o, buildHabitSummary dbC1 1 2024 "2024-01-05" = some o ∧
        o.year = buildPeriodSummary dbC1 1
          (max (daysFromCivil 2024 1 1)
            (fromISODate (⟨1, "Read", "2024-01-01", none⟩ : HabitRow).created_at))
          (daysFromCivil 2024 12 31)
          (fromISODate (effectiveTodayISO ⟨1, "Read", "2024-01-01", none⟩
            "2024-01-05")) :=
  ⟨by decide,
   C1_year_summary_end_to_end.1 dbC1 1 2024 "2024-01-05"
     ⟨1, "Read", "2024-01-01", none⟩ (by decide)⟩

/-- **C8**: single-habit current streak for the habit created 2024-03-10 with
completions through 2024-03-20: `0` as of today = 2024-03-25 and `11` as of
today = 2024-03-20, both through the endpoint and through
`computeStreaksFromMap` directly. -/
theorem C8_single_habit_current_streak :
    (buildHabitSummary dbC8 1 2024 "2024-03-25").map (fun o => o.currentStreak)
        = some 0
    ∧ (buildHabitSummary dbC8 1 2024 "2024-03-20").map (fun o => o.currentStreak)
        = some 11
    ∧ (computeStreaksFromMap (getHabitCompletionsMap dbC8 1)
        (fromISODate "2024-03-10") (fromISODate "2024-03-25")).1 = 0
    ∧ (computeStreaksFromMap (getHabitCompletionsMap dbC8 1)
        (fromISODate "2024-03-10") (fromISODate "2024-03-20")).1 = 11 := by
  exact ⟨by decide, by decide, by decide, by decide⟩

/-- **C4 counterexample**: the single-habit weekday insight does *not*
restrict `total` to active-habit-days.  For a habit created 2024-01-03 (so
2024-01-01, a Monday, is not an active day) with no checkins and
today = 2024-01-03, the endpoint's weekday stats give Monday `total = 1`,
whereas the active-day-filtered statistics of the claim give Monday
`total = 0`. -/
theorem C4_weekday_counterexample :
    (buildHabitSummary dbC4 1 2024 "2024-01-03").map
        (fun o => o.weekdayStats.map fun st => (st.name, st.done, st.total))
      = some [("Sun", 0, 0), ("Mon", 0, 1), ("Tue", 0, 1), ("Wed", 0, 1),
              ("Thu", 0, 0), ("Fri", 0, 0), ("Sat", 0, 0)]
    ∧ isHabitActiveOnDate ⟨1, "Gym", "2024-01-03", none⟩ "2024-01-01" = false
    ∧ weekdayOf (fromISODate "2024-01-01") = 1
    ∧ (weekdayStatsSingle (getHabitCompletionsMap dbC4 1) (daysFromCivil 2024 1 1)
          (daysFromCivil 2024 12 31) (fromISODate "2024-01-03")).map
        (fun st => (st.name, st.done, st.total))
      ≠ (specWeekdayStatsSingle ⟨1, "Gym", "2024-01-03", none⟩
          (getHabitCompletionsMap dbC4 1) (daysFromCivil 2024 1 1)
          (daysFromCivil 2024 12 31) (fromISODate "2024-01-03")).map
        (fun st => (st.name, st.done, st.total)) := by
  exact ⟨by decide, by decide, by decide, by decide⟩

/-- **C4 amended**: the weekday insight buckets each day of the year capped
at today by weekday.  The *combined* variant counts one `total` per active
habit and one `done` per completed active habit (zero-active days contribute
nothing); the *single-habit* variant increments the weekday's `total` for
every day of the capped range regardless of the habit's activity window, and
`done` whenever the completions map records that day as completed.  In both,
`rate = done/total*100` rounded to one decimal, `0` when `total = 0`. -/
theorem C4_weekday_buckets_amended (m : List (String × Bool))
    (habits : List HabitRow) (cm : List (String × Nat))
    (ys ye td w : Nat) (hw : w < 7) :
    (weekdayStatsSingle m ys ye td)[w]?
      = some ⟨weekdayNames.getD w "",
          (((weekdayLoopDays ys ye td).filter fun d => weekdayOf d == w).filter
            fun d => lookupCompletion m (toISODate d)).length,
          ((weekdayLoopDays ys ye td).filter fun d => weekdayOf d == w).length,
          consistencyOf
            ((((weekdayLoopDays ys ye td).filter fun d => weekdayOf d == w).filter
              fun d => lookupCompletion m (toISODate d)).length)
            (((weekdayLoopDays ys ye td).filter fun d => weekdayOf d == w).length)⟩
    ∧ (weekdayStatsAll habits cm ys ye td)[w]?
      = some ⟨weekdayNames.getD w "",
          (((weekdayLoopDays ys ye td).filter fun d => weekdayOf d == w).map
            fun d => doneCountOn habits cm (toISODate d)).sum,
          (((weekdayLoopDays ys ye td).filter fun d => weekdayOf d == w).map
            fun d => (activeHabitsOn habits (toISODate d)).length).sum,
          consistencyOf
            ((((weekdayLoopDays ys ye td).filter fun d => weekdayOf d == w).map
              fun d => doneCountOn habits cm (toISODate d)).sum)
            ((((weekdayLoopDays ys ye td).filter fun d => weekdayOf d == w).map
              fun d => (activeHabitsOn habits (toISODate d)).length).sum)⟩ := by
  constructor
  · rw [weekdayStatsSingle]
    simp [List.getElem?_map, List.getElem?_range, hw]
  · rw [weekdayStatsAll]
    simp [List.getElem?_map, List.getElem?_range, hw]

/-- Witness for the amended C4 at concrete inputs (the Monday bucket of the
counterexample database). -/
theorem C4_weekday_buckets_amended_witness :
    1 < 7
    ∧ (weekdayStatsSingle (getHabitCompletionsMap dbC4 1) (daysFromCivil 2024 1 1)
        (daysFromCivil 2024 12 31) (fromISODate "2024-01-03"))[1]?
      = some ⟨weekdayNames.getD 1 "",
          (((weekdayLoopDays (daysFromCivil 2024 1 1) (daysFromCivil 2024 12 31)
              (fromISODate "2024-01-03")).filter fun d => weekdayOf d == 1).filter
            fun d => lookupCompletion (getHabitCompletionsMap dbC4 1) (toISODate d)).length,
          ((weekdayLoopDays (daysFromCivil 2024 1 1) (daysFromCivil 2024 12 31)
              (fromISODate "2024-01-03")).filter fun d => weekdayOf d == 1).length,
          consistencyOf
            ((((weekdayLoopDays (daysFromCivil 2024 1 1) (daysFromCivil 2024 12 31)
                (fromISODate "2024-01-03")).filter fun d => weekdayOf d == 1).filter
              fun d => lookupCompletion (getHabitCompletionsMap dbC4 1) (toISODate d)).length)
            (((weekdayLoopDays (daysFromCivil 2024 1 1) (daysFromCivil 2024 12 31)
                (fromISODate "2024-01-03")).filter fun d => weekdayOf d == 1).length)⟩ :=
  ⟨by decide,
   (C4_weekday_buckets_amended (getHabitCompletionsMap dbC4 1) dbC4.habits []
     (daysFromCivil 2024 1 1) (daysFromCivil 2024 12 31)
     (fromISODate "2024-01-03") 1 (by decide)).1⟩

/-- **C7**: the lifecycle filter accepts exactly the dates `D` with
`createdAt ≤ D` and (`deletedOn` unset or `deletedOn > D`), the comparisons
being lexicographic string comparisons; and on zero-padded `YYYY-MM-DD`
strings the lexicographic order coincides with chronological
(year, month, day) order. -/
theorem C7_lifecycle_filter (habit : HabitRow) (D : String)
    (hno : habit.deleted_on ≠ some "") :
    (isHabitActiveOnDate habit D = true
      ↔ habit.created_at ≤ D ∧ ∀ s : String, habit.deleted_on = some s → D < s)
    ∧ (∀ y1 m1 d1 y2 m2 d2 : Nat,
        1000 ≤ y1 → y1 < 10000 → 1 ≤ m1 → m1 ≤ 12 → 1 ≤ d1 → d1 ≤ 31 →
        1000 ≤ y2 → y2 < 10000 → 1 ≤ m2 → m2 ≤ 12 → 1 ≤ d2 → d2 ≤ 31 →
        (isoStringOfYMD y1 m1 d1 ≤ isoStringOfYMD y2 m2 d2
          ↔ (y1 < y2 ∨ (y1 = y2 ∧ (m1 < m2 ∨ (m1 = m2 ∧ d1 ≤ d2)))))) := by
  constructor
  · rw [isHabitActiveOnDate, Bool.and_eq_true, strLe_iff]
    cases hdel : habit.deleted_on with
    | none => simp
    | some s =>
      have hs : s ≠ "" := fun h => hno (by rw [hdel, h])
      have hbeq : (s == "") = false := by simpa using hs
      simp only [hbeq, Bool.false_or, strLt_iff]
      constructor
      · rintro ⟨h1, h2⟩
        refine ⟨h1, ?_⟩
        rintro s' hs'
        cases hs'
        exact h2
      · rintro ⟨h1, h2⟩
        exact ⟨h1, h2 s rfl⟩
  · intro y1 m1 d1 y2 m2 d2 hy1a hy1b hm1a hm1b hd1a hd1b hy2a hy2b hm2a hm2b hd2a hd2b
    rw [← not_lt]
    rw [isoString_lt_iff y2 m2 d2 y1 m1 d1 hy2b (by omega) (by omega) hy1b
      (by omega) (by omega)]
    omega

/-- Witness for C7 at a concrete habit and date. -/
theorem C7_lifecycle_filter_witness :
    (⟨1, "A", "2024-01-01", some "2024-02-01"⟩ : HabitRow).deleted_on ≠ some ""
    ∧ (isHabitActiveOnDate ⟨1, "A", "2024-01-01", some "2024-02-01"⟩ "2024-01-15" = true
        ↔ ("2024-01-01" : String) ≤ "2024-01-15"
          ∧ ∀ s : String,
            (⟨1, "A", "2024-01-01", some "2024-02-01"⟩ : HabitRow).deleted_on = some s →
              ("2024-01-15" : String) < s) :=
  ⟨by decide, (C7_lifecycle_filter ⟨1, "A", "2024-01-01", some "2024-02-01"⟩
    "2024-01-15" (by decide)).1⟩

/-- **C9**: when `POST /api/habits` reactivates a soft-deleted habit (a
case-insensitive name match among deleted rows, none among active rows), the
prior row itself is updated — `deleted_on` cleared, `created_at` set to
today, id preserved — the checkin records are untouched, and any combined
period summary whose capped range contains the reactivation day counts that
day (total ≥ 1, the reactivated habit being active on it). -/
theorem C9_reactivation (db : Db) (name : String) (todayD s e hid : Nat)
    (db' : Db) (cm : List (String × Nat))
    (hrun : createHabit db name (toISODate todayD)
      = (db', CreateHabitResult.reactivated hid))
    (hs : s ≤ todayD) (he : todayD ≤ e) :
    db'.checkins = db.checkins
    ∧ (∃ prior, prior ∈ db.habits ∧ prior.id = hid ∧ prior.deleted_on ≠ none
        ∧ lowerStr prior.name = lowerStr (trimStr name))
    ∧ db'.habits = db.habits.map (fun h =>
        if h.id == hid then ⟨h.id, h.name, toISODate todayD, none⟩ else h)
    ∧ (∃ h', h' ∈ db'.habits ∧ h'.id = hid ∧ h'.created_at = toISODate todayD
        ∧ h'.deleted_on = none
        ∧ isHabitActiveOnDate h' (toISODate todayD) = true)
    ∧ 1 ≤ (buildAllPeriodSummary db'.habits cm s e todayD).total := by
  simp only [createHabit] at hrun
  by_cases h0 : trimStr name == ""
  · rw [if_pos h0] at hrun
    simp at hrun
  · rw [if_neg h0] at hrun
    by_cases h1 : (db.habits.find? fun h =>
        lowerStr h.name == lowerStr (trimStr name) && h.deleted_on == none).isSome
    · rw [if_pos h1] at hrun
      simp at hrun
    · rw [if_neg h1] at hrun
      cases hmatch : db.habits.filter fun h =>
          lowerStr h.name == lowerStr (trimStr name) && h.deleted_on != none with
      | nil =>
        rw [hmatch] at hrun
        simp at hrun
      | cons hrow rest =>
        rw [hmatch] at hrun
        simp only [Prod.mk.injEq, CreateHabitResult.reactivated.injEq] at hrun
        obtain ⟨hdb', hid'⟩ := hrun
        set chosen := rest.foldl
          (fun a b =>
            if strLt (a.deleted_on.getD "") (b.deleted_on.getD "") then b else a)
          hrow with hchosen
        have hcmem0 : chosen ∈ hrow :: rest := by
          rw [hchosen]
          exact foldl_choice_mem _ rest hrow
        have hcfilter : chosen ∈ db.habits.filter fun h =>
            lowerStr h.name == lowerStr (trimStr name) && h.deleted_on != none := by
          rw [hmatch]
          exact hcmem0
        obtain ⟨hcmem, hcp⟩ := List.mem_filter.mp hcfilter
        rw [Bool.and_eq_true, beq_iff_eq, bne_iff_ne] at hcp
        refine ⟨?_, ?_, ?_, ?_, ?_⟩
        · rw [← hdb']
        · exact ⟨chosen, hcmem, hid', hcp.2, hcp.1⟩
        · rw [← hdb', hid']
        · refine ⟨⟨chosen.id, chosen.name, toISODate todayD, none⟩, ?_, hid',
            rfl, rfl, ?_⟩
          · rw [← hdb']
            have := List.mem_map_of_mem (fun h =>
              if h.id == chosen.id then
                (⟨h.id, h.name, toISODate todayD, none⟩ : HabitRow)
              else h) hcmem
            simpa using this
          · rw [isHabitActiveOnDate]
            simp only [Bool.and_true]
            exact (strLe_iff _ _).mpr le_rfl
        · rw [buildAllPeriodSummary_eq]
          simp only
          rw [min_eq_right he]
          have hmemday : todayD ∈ dayRange s todayD :=
            (mem_dayRange _ _ _).mpr ⟨hs, le_rfl⟩
          have hactiveb :
              isHabitActiveOnDate ⟨chosen.id, chosen.name, toISODate todayD, none⟩
                (toISODate todayD) = true := by
            rw [isHabitActiveOnDate]
            simp only [Bool.and_true]
            exact (strLe_iff _ _).mpr le_rfl
          have hmem' :
              (⟨chosen.id, chosen.name, toISODate todayD, none⟩ : HabitRow)
                ∈ db'.habits := by
            rw [← hdb']
            have := List.mem_map_of_mem (fun h =>
              if h.id == chosen.id then
                (⟨h.id, h.name, toISODate todayD, none⟩ : HabitRow)
              else h) hcmem
            simpa using this
          have hact : 1 ≤ (activeHabitsOn db'.habits (toISODate todayD)).length := by
            have hmemf :
                (⟨chosen.id, chosen.name, toISODate todayD, none⟩ : HabitRow)
                  ∈ activeHabitsOn db'.habits (toISODate todayD) :=
              List.mem_filter.mpr ⟨hmem', hactiveb⟩
            exact List.length_pos_of_mem hmemf
          calc (1 : Nat)
              ≤ (activeHabitsOn db'.habits (toISODate todayD)).length := hact
            _ ≤ ((dayRange s todayD).map fun d =>
                  (activeHabitsOn db'.habits (toISODate d)).length).sum := by
                apply List.single_le_sum (fun x _ => Nat.zero_le x)
                exact List.mem_map_of_mem _ hmemday

/-- Witness for C9: reactivating `"read"` in the `dbC9` database on day
19754 (2024-02-01). -/
theorem C9_reactivation_witness :
    createHabit dbC9 "read" (toISODate 19754)
        = (⟨[⟨1, "Read", "2024-02-01", none⟩, ⟨2, "Gym", "2023-06-01", none⟩],
            [⟨1, "2023-05-02", 1⟩]⟩,
           CreateHabitResult.reactivated 1)
    ∧ ((⟨[⟨1, "Read", "2024-02-01", none⟩, ⟨2, "Gym", "2023-06-01", none⟩],
          [⟨1, "2023-05-02", 1⟩]⟩ : Db).checkins = dbC9.checkins
      ∧ (∃ prior, prior ∈ dbC9.habits ∧ prior.id = 1 ∧ prior.deleted_on ≠ none
          ∧ lowerStr prior.name = lowerStr (trimStr "read"))
      ∧ (⟨[⟨1, "Read", "2024-02-01", none⟩, ⟨2, "Gym", "2023-06-01", none⟩],
          [⟨1, "2023-05-02", 1⟩]⟩ : Db).habits = dbC9.habits.map (fun h =>
            if h.id == 1 then ⟨h.id, h.name, toISODate 19754, none⟩ else h)
      ∧ (∃ h', h' ∈ (⟨[⟨1, "Read", "2024-02-01", none⟩,
            ⟨2, "Gym", "2023-06-01", none⟩],
            [⟨1, "2023-05-02", 1⟩]⟩ : Db).habits ∧ h'.id = 1
          ∧ h'.created_at = toISODate 19754 ∧ h'.deleted_on = none
          ∧ isHabitActiveOnDate h' (toISODate 19754) = true)
      ∧ 1 ≤ (buildAllPeriodSummary
          (⟨[⟨1, "Read", "2024-02-01", none⟩, ⟨2, "Gym", "2023-06-01", none⟩],
            [⟨1, "2023-05-02", 1⟩]⟩ : Db).habits [] 19754 19754 19754).total) :=
  ⟨by decide,
   C9_reactivation dbC9 "read" 19754 19754 19754 1 _ [] (by decide)
     (by decide) (by decide)⟩

/-- **C10**: in both summary endpoints the `habitComparison` list has one
entry per habit row — soft-deleted rows included — whose consistency is the
period summary over `[max(yearStart, createdAt), yearEnd]` capped at the
handler's today (the single-habit endpoint passes its effective today), with
no truncation at the compared habit's deletion date: `buildPeriodSummary`
depends only on the checkins table, so days on or after a habit's
soft-deletion stay in `total` and, lacking completed records, count as
misses. -/
theorem C10_habit_comparison (db : Db) (hid y : Nat) (now : String)
    (habit : HabitRow)
    (hfind : db.habits.find? (fun h => h.id == hid) = some habit) :
    (∃ o, buildHabitSummary db hid y now = some o ∧
      o.habitComparison = db.habits.map fun entry =>
        ⟨entry.id, entry.name,
         (buildPeriodSummary db entry.id
           (max (daysFromCivil y 1 1) (fromISODate entry.created_at))
           (daysFromCivil y 12 31)
           (fromISODate (effectiveTodayISO habit now))).consistency⟩)
    ∧ (db.habits ≠ [] →
        (buildAllHabitsSummary db y now).habitComparison
          = db.habits.map fun entry =>
              ⟨entry.id, entry.name,
               (buildPeriodSummary db entry.id
                 (max (daysFromCivil y 1 1) (fromISODate entry.created_at))
                 (daysFromCivil y 12 31) (fromISODate now)).consistency⟩)
    ∧ (∀ (db2 : Db) (hid2 s e t : Nat), db2.checkins = db.checkins →
        buildPeriodSummary db2 hid2 s e t = buildPeriodSummary db hid2 s e t) := by
  refine ⟨?_, ?_, ?_⟩
  · simp only [buildHabitSummary, hfind]
    refine ⟨_, rfl, ?_⟩
    apply List.map_congr_left
    intro entry _
    rw [ite_lt_eq_max, Nat.max_comm]
  · intro hne
    have hemp : db.habits.isEmpty = false := by simpa using hne
    simp only [buildAllHabitsSummary, hemp, Bool.false_eq_true, if_false]
    apply List.map_congr_left
    intro entry _
    rw [ite_lt_eq_max, Nat.max_comm]
  · intro db2 hid2 s e t hck
    rw [buildPeriodSummary, buildPeriodSummary, hck]

/-- Witness for C10 at the `dbC9` database (which contains a soft-deleted
row). -/
theorem C10_habit_comparison_witness :
    (buildAllHabitsSummary dbC9 2023 "2023-07-01").habitComparison
      = dbC9.habits.map (fun entry =>
          ⟨entry.id, entry.name,
           (buildPeriodSummary dbC9 entry.id
             (max (daysFromCivil 2023 1 1) (fromISODate entry.created_at))
             (daysFromCivil 2023 12 31) (fromISODate "2023-07-01")).consistency⟩) :=
  (C10_habit_comparison dbC9 2 2023 "2023-07-01" ⟨2, "Gym", "2023-06-01", none⟩
    (by decide)).2.1 (by decide)

end Leetbit
